import Mathlib

/-
Shallow embedding of the nfs-client provisioner (external-storage repo).
The repo holds two near-duplicate variants of the same logic:
  * src/nfs-client/cmd/nfs-client-provisioner/provisioner.go  (primary)
  * src/unnamed/part_000                                      (variant, suffix U here)
Go strings are modelled as lists of bytes (List Nat, entries < 256 for real
Go strings); the host filesystem and mount table as an explicit FS state;
fallible syscalls (mkdir, the mount command) as an Env oracle; executed
side effects as an event trace.
-/

namespace NFSProv

/-- Go strings are byte sequences; we model them as lists of naturals. -/
abbrev Bytes := List Nat

/-- Encode an ASCII string literal as bytes (used only for ASCII literals). -/
def bytes (s : String) : Bytes := s.toList.map Char.toNat

/- ===== Go standard library: path.Clean / path.Dir / filepath.Join ===== -/

/-- Split a byte string on the path separator 47 = a slash. -/
def splitSep : Bytes → List Bytes
  | [] => [[]]
  | b :: rest =>
    if b = 47 then [] :: splitSep rest
    else
      match splitSep rest with
      | g :: gs => (b :: g) :: gs
      | [] => [[b]]

/-- Join components with the path separator (strings.Join with a slash). -/
def joinSep : List Bytes → Bytes
  | [] => []
  | [c] => c
  | c :: cs => c ++ 47 :: joinSep cs

/-- One step of path.Clean's component processing: skip empty and dot
components, resolve dot-dot against the stack (46 = a dot). -/
def cleanStep (rooted : Bool) (stack : List Bytes) (c : Bytes) : List Bytes :=
  if c = [] ∨ c = [46] then stack
  else if c = [46, 46] then
    match stack with
    | [] => if rooted then [] else [[46, 46]]
    | top :: rest => if top = [46, 46] then c :: top :: rest else rest
  else c :: stack

/-- path.Clean's lexical processing of a component list. -/
def cleanComps (rooted : Bool) (cs : List Bytes) : List Bytes :=
  (cs.foldl (cleanStep rooted) []).reverse

/-- Go path.Clean: shortest lexically equivalent path. -/
def goClean (p : Bytes) : Bytes :=
  match p with
  | [] => [46]
  | b :: rest =>
    let comps := cleanComps (b == 47) (splitSep (b :: rest))
    if b = 47 then 47 :: joinSep comps
    else if comps = [] then [46] else joinSep comps

/-- Go filepath.Join on a list of elements: drop leading empties, join the
rest with the separator, Clean the result. -/
def goJoinL (elems : List Bytes) : Bytes :=
  match elems.dropWhile (fun e => e.isEmpty) with
  | [] => []
  | es => goClean (joinSep es)

/-- Go filepath.Join with two arguments. -/
def goJoin (a b : Bytes) : Bytes := goJoinL [a, b]

/-- Go filepath.Join with three arguments. -/
def goJoin3 (a b c : Bytes) : Bytes := goJoinL [a, b, c]

/-- Everything up to and including the final slash of a path (Go path.Split's
first component). -/
def dirPart (p : Bytes) : Bytes := (p.reverse.dropWhile (fun b => b != 47)).reverse

/-- Go path.Dir: Clean of everything before the final path element. -/
def goDir (p : Bytes) : Bytes := goClean (dirPart p)

/- ===== Go standard library: net/url QueryEscape ===== -/

/-- Bytes net/url never escapes in query components: alphanumerics and the
four unreserved marks dash, underscore, dot, tilde. -/
def isUnreservedB (b : Nat) : Bool :=
  (97 ≤ b && b ≤ 122) || (65 ≤ b && b ≤ 90) || (48 ≤ b && b ≤ 57) ||
    b == 45 || b == 95 || b == 46 || b == 126

/-- Uppercase hex digit of a value below 16, as a byte. -/
def hexUpper (n : Nat) : Nat := if n < 10 then 48 + n else 55 + n

/-- net/url escaping of a single byte in query-component mode: unreserved
bytes kept, a space becomes a plus, anything else becomes percent hex hex. -/
def escByte (b : Nat) : Bytes :=
  if isUnreservedB b then [b]
  else if b = 32 then [43]
  else [37, hexUpper (b / 16), hexUpper (b % 16)]

/-- Go url.QueryEscape over a byte string. -/
def queryEscape (s : Bytes) : Bytes := (s.map escByte).flatten

/-- Value of an uppercase hex digit byte. -/
def hexVal (c : Nat) : Nat := if c < 58 then c - 48 else c - 55

/-- Decoder for queryEscape output, used to show the escaping is injective.
A percent consumes the two following hex digits; a plus decodes to a space;
anything else stands for itself. -/
def unescapeQ : Bytes → Bytes
  | [] => []
  | b :: rest =>
    if b = 37 then
      (hexVal (rest.headD 0) * 16 + hexVal (rest.tail.headD 0)) ::
        unescapeQ rest.tail.tail
    else if b = 43 then 32 :: unescapeQ rest
    else b :: unescapeQ rest
termination_by l => l.length
decreasing_by
  · simp only [List.length_cons, List.length_tail]
    omega
  · simp
  · simp

/- ===== Repository code: naming and mount-point derivation ===== -/

/-- Root of all local mount points (const mountPath in both variants). -/
def mountPathB : Bytes := bytes "/persistentvolumes"

/-- Parameter key nfsServer. -/
def nfsServerKey : Bytes := bytes "nfsServer"

/-- Parameter key nfsPath. -/
def nfsPathKey : Bytes := bytes "nfsPath"

/-- Label key for the tenant grouping field. -/
def tenantKey : Bytes := bytes "io.wise2c.tenant"

/-- Label key for the stack grouping field. -/
def stackKey : Bytes := bytes "io.wise2c.stack"

/-- Label key for the service grouping field. -/
def serviceKey : Bytes := bytes "io.wise2c.service"

/-- Archive name prefix prepended by Delete. -/
def archivedPre : Bytes := bytes "archived-"

/-- provisioner.go pvName: Sprintf tenant-stack-service-name (45 = a dash). -/
def pvName (tenant stack service name : Bytes) : Bytes :=
  tenant ++ 45 :: stack ++ 45 :: service ++ 45 :: name

/-- part_000 pvName: Sprintf namespace-name. -/
def pvName2 (ns name : Bytes) : Bytes := ns ++ 45 :: name

/-- provisioner.go mountPoint: Sprintf mountPath/server/QueryEscape(path). -/
def mountPoint (server path : Bytes) : Bytes :=
  mountPathB ++ 47 :: server ++ 47 :: queryEscape path

/-- provisioner.go inMap: key presence in a Go map (modelled as an
association list). -/
def inMap (key : Bytes) (m : List (Bytes × Bytes)) : Bool :=
  (m.lookup key).isSome

/-- Go map indexing: the stored value, or the zero value (empty string). -/
def mapGet (m : List (Bytes × Bytes)) (key : Bytes) : Bytes :=
  (m.lookup key).getD []

/- ===== World state, oracle and effects ===== -/

/-- Observable filesystem actions the provisioner performs. -/
inductive Ev where
  | mkdirAll (p : Bytes)
  | mountCmd (server path mp : Bytes)
  | rename (o n : Bytes)
deriving DecidableEq

/-- Host state: the mount table and the set of existing directories. -/
structure FS where
  mounts : List Bytes
  dirs : List Bytes
deriving DecidableEq

/-- Environment oracle: whether /proc/mounts is readable, and whether a
given MkdirAll or mount command invocation succeeds. -/
structure Env where
  procReadable : Bool
  mkdirOK : Bytes → Bool
  mountOK : Bytes → Bytes → Bool

/-- Syscall-level failures surfaced by the code. -/
inductive SysErr where
  | mkdirFail
  | mountCmdFail
  | renameNoEnt
deriving DecidableEq

/-- Provision's error taxonomy as produced by the source. -/
inductive ProvErr where
  | unsupportedSelector
  | missingParameter
  | mountWrap (e : SysErr)
  | dirCreate
deriving DecidableEq

/-- Add a directory path if absent (os.MkdirAll on an existing path is a
no-op). -/
def addDir (p : Bytes) (ds : List Bytes) : List Bytes :=
  if p ∈ ds then ds else p :: ds

/-- isMounted: scan /proc/mounts for the mount point; an unreadable table
counts as not mounted. -/
def isMounted (env : Env) (fs : FS) (mp : Bytes) : Bool :=
  env.procReadable && decide (mp ∈ fs.mounts)

/-- Result of ensureMount: the mount point, the error if any, the new
state, and the syscalls performed. -/
structure MRes where
  mp : Bytes
  err : Option SysErr
  fs : FS
  tr : List Ev
deriving DecidableEq

/-- provisioner.go ensureMount: return the derived mount point at once if
mounted, otherwise MkdirAll it and run the mount command. -/
def ensureMount (env : Env) (fs : FS) (server path : Bytes) : MRes :=
  let mp := mountPoint server path
  if isMounted env fs mp then ⟨mp, none, fs, []⟩
  else if env.mkdirOK mp then
    if env.mountOK server path then
      ⟨mp, none, ⟨mp :: fs.mounts, addDir mp fs.dirs⟩,
        [.mkdirAll mp, .mountCmd server path mp]⟩
    else
      ⟨mp, some .mountCmdFail, ⟨fs.mounts, addDir mp fs.dirs⟩,
        [.mkdirAll mp, .mountCmd server path mp]⟩
  else ⟨mp, some .mkdirFail, fs, [.mkdirAll mp]⟩

/-- os.Rename: fails when the source is missing, otherwise moves the path. -/
def osRename (fs : FS) (o n : Bytes) : Option SysErr × FS :=
  if o ∈ fs.dirs then
    (none, ⟨fs.mounts, addDir n (fs.dirs.filter (fun d => d != o))⟩)
  else (some .renameNoEnt, fs)

/-- The v1.NFSVolumeSource fields the code touches. -/
structure NFSSource where
  server : Bytes
  path : Bytes
  readOnly : Bool
deriving DecidableEq

/-- The v1.PersistentVolume fields the code touches; pointer-typed fields
(NFS source, ClaimRef) are Options, none meaning a nil pointer. -/
structure PersistentVolume where
  name : Bytes
  labels : List (Bytes × Bytes)
  reclaimPolicy : Nat
  accessModes : List Nat
  capacityStorage : Nat
  nfs : Option NFSSource
  claimRef : Option Bytes
deriving DecidableEq

/-- The controller.VolumeOptions fields the code reads.  Opaque payloads
(access modes, the storage quantity, the reclaim policy) are modelled by
plain values copied around. -/
structure VolumeOptions where
  hasSelector : Bool
  parameters : List (Bytes × Bytes)
  tenant : Bytes
  stack : Bytes
  service : Bytes
  pvname : Bytes
  pvcNamespace : Bytes
  accessModes : List Nat
  requestsStorage : Nat
  reclaimPolicy : Nat

deriving instance DecidableEq for Except

/-- Outcome of Provision: the returned descriptor or error, the new state,
and the syscalls performed. -/
structure PRes where
  res : Except ProvErr PersistentVolume
  fs : FS
  tr : List Ev
deriving DecidableEq

/-- Outcome of Delete: the returned error if any, the new state, and the
syscalls performed. -/
structure DRes where
  err : Option SysErr
  fs : FS
  tr : List Ev
deriving DecidableEq

/-- provisioner.go Provision: reject selectors, require both parameters,
ensure the mount, create the per-volume directory, build the PV. -/
def Provision (env : Env) (fs : FS) (o : VolumeOptions) : PRes :=
  if o.hasSelector then ⟨.error .unsupportedSelector, fs, []⟩
  else if !(inMap nfsPathKey o.parameters && inMap nfsServerKey o.parameters) then
    ⟨.error .missingParameter, fs, []⟩
  else
    let server := mapGet o.parameters nfsServerKey
    let path := mapGet o.parameters nfsPathKey
    let m := ensureMount env fs server path
    match m.err with
    | some e => ⟨.error (.mountWrap e), m.fs, m.tr⟩
    | none =>
      let pvn := pvName o.tenant o.stack o.service o.pvname
      let dir := goJoin m.mp pvn
      if env.mkdirOK dir then
        ⟨.ok
          { name := o.pvname
            labels := [(tenantKey, o.tenant), (stackKey, o.stack), (serviceKey, o.service)]
            reclaimPolicy := o.reclaimPolicy
            accessModes := o.accessModes
            capacityStorage := o.requestsStorage
            nfs := some ⟨server, goJoin path pvn, false⟩
            claimRef := none },
          ⟨m.fs.mounts, addDir dir m.fs.dirs⟩, m.tr ++ [.mkdirAll dir]⟩
      else ⟨.error .dirCreate, m.fs, m.tr ++ [.mkdirAll dir]⟩

/-- provisioner.go Delete: dereference the NFS source (nil means panic,
modelled as none), remount the parent export, recompute the name from the
labels, rename the directory to its archived name. -/
def Delete (env : Env) (fs : FS) (v : PersistentVolume) : Option DRes :=
  match v.nfs with
  | none => none
  | some src =>
    let server := src.server
    let path := goDir src.path
    let m := ensureMount env fs server path
    match m.err with
    | some e => some ⟨some e, m.fs, m.tr⟩
    | none =>
      let pvn := pvName (mapGet v.labels tenantKey) (mapGet v.labels stackKey)
        (mapGet v.labels serviceKey) v.name
      let oldPath := goJoin m.mp pvn
      let archivePath := goJoin m.mp (archivedPre ++ pvn)
      let r := osRename m.fs oldPath archivePath
      some ⟨r.1, r.2, m.tr ++ [.rename oldPath archivePath]⟩

/-- part_000 ensureMount: same logic but the mount point is supplied by the
caller rather than derived. -/
def ensureMountU (env : Env) (fs : FS) (server path mp : Bytes) :
    Option SysErr × FS × List Ev :=
  if isMounted env fs mp then (none, fs, [])
  else if env.mkdirOK mp then
    if env.mountOK server path then
      (none, ⟨mp :: fs.mounts, addDir mp fs.dirs⟩,
        [.mkdirAll mp, .mountCmd server path mp])
    else
      (some .mountCmdFail, ⟨fs.mounts, addDir mp fs.dirs⟩,
        [.mkdirAll mp, .mountCmd server path mp])
  else (some .mkdirFail, fs, [.mkdirAll mp])

/-- part_000 Provision: identical shape, but the mount point is
Join(mountPath, server) — the remote path plays no part in it — and the
name is namespace-name with no labels stored. -/
def ProvisionU (env : Env) (fs : FS) (o : VolumeOptions) : PRes :=
  if o.hasSelector then ⟨.error .unsupportedSelector, fs, []⟩
  else if !(inMap nfsPathKey o.parameters && inMap nfsServerKey o.parameters) then
    ⟨.error .missingParameter, fs, []⟩
  else
    let server := mapGet o.parameters nfsServerKey
    let path := mapGet o.parameters nfsPathKey
    let mp := goJoin mountPathB server
    match ensureMountU env fs server path mp with
    | (some e, fs1, tr) => ⟨.error (.mountWrap e), fs1, tr⟩
    | (none, fs1, tr) =>
      let pvn := pvName2 o.pvcNamespace o.pvname
      let dir := goJoin mp pvn
      if env.mkdirOK dir then
        ⟨.ok
          { name := o.pvname
            labels := []
            reclaimPolicy := o.reclaimPolicy
            accessModes := o.accessModes
            capacityStorage := o.requestsStorage
            nfs := some ⟨server, goJoin path pvn, false⟩
            claimRef := none },
          ⟨fs1.mounts, addDir dir fs1.dirs⟩, tr ++ [.mkdirAll dir]⟩
      else ⟨.error .dirCreate, fs1, tr ++ [.mkdirAll dir]⟩

/-- part_000 Delete: dereferences the NFS source and, after a successful
mount, the ClaimRef (nil pointers modelled as none results). -/
def DeleteU (env : Env) (fs : FS) (v : PersistentVolume) : Option DRes :=
  match v.nfs with
  | none => none
  | some src =>
    let server := src.server
    let path := goDir src.path
    match ensureMountU env fs server path (goJoin mountPathB server) with
    | (some e, fs1, tr) => some ⟨some e, fs1, tr⟩
    | (none, fs1, tr) =>
      match v.claimRef with
      | none => none
      | some ns =>
        let pvn := pvName2 ns v.name
        let oldPath := goJoin3 mountPathB server pvn
        let archivePath := goJoin3 mountPathB server (archivedPre ++ pvn)
        let r := osRename fs1 oldPath archivePath
        some ⟨r.1, r.2, tr ++ [.rename oldPath archivePath]⟩

/- ===== Side predicates used by the theorems ===== -/

/-- A plain path component: nonempty, not dot or dot-dot, slash-free. -/
def isCompB (c : Bytes) : Bool :=
  decide (c ≠ [] ∧ c ≠ [46] ∧ c ≠ [46, 46] ∧ 47 ∉ c)

/-- An already-clean absolute path with at least one component: a slash
followed by plain components joined by slashes. -/
def goodAbsB (p : Bytes) : Bool :=
  match p with
  | [] => false
  | b :: rest => b == 47 && (decide (rest ≠ []) && (splitSep rest).all isCompB)

/-- Number of mount-command invocations in a trace. -/
def mountEvCount (tr : List Ev) : Nat :=
  (tr.filter fun e =>
    match e with
    | .mountCmd _ _ _ => true
    | _ => false).length

/-- Recover the descriptor from a Provision result (zero value on error). -/
def getPV : Except ProvErr PersistentVolume → PersistentVolume
  | .ok pv => pv
  | .error _ => ⟨[], [], 0, [], 0, none, none⟩

/- ===== Concrete sample inputs for witnesses and counterexamples ===== -/

/-- Environment where every syscall succeeds and /proc/mounts is readable. -/
def envAllOK : Env := ⟨true, fun _ => true, fun _ _ => true⟩

/-- Environment where mkdir succeeds but every mount command fails. -/
def envMountFail : Env := ⟨true, fun _ => true, fun _ _ => false⟩

/-- Environment where only the sample mount-point directory can be
created: the per-volume MkdirAll fails. -/
def envDirFail : Env :=
  ⟨true, fun p => p == mountPoint (bytes "s") (bytes "/export"), fun _ _ => true⟩

/-- Empty host state. -/
def fsEmpty : FS := ⟨[], []⟩

/-- Parameter block holding both recognized keys. -/
def paramsSP (s p : String) : List (Bytes × Bytes) :=
  [(nfsServerKey, bytes s), (nfsPathKey, bytes p)]

/-- Sample request around a given selector flag and parameter block. -/
def mkOpts (sel : Bool) (params : List (Bytes × Bytes)) : VolumeOptions :=
  { hasSelector := sel, parameters := params,
    tenant := bytes "acme", stack := bytes "web", service := bytes "svc",
    pvname := bytes "pv-1", pvcNamespace := bytes "ns",
    accessModes := [1], requestsStorage := 5, reclaimPolicy := 2 }

/-- Zero Delete result used as a default when projecting Option results. -/
def dres0 : DRes := ⟨none, fsEmpty, []⟩

/-- A descriptor whose NFS source pointer is nil. -/
def pvNoNFS : PersistentVolume := ⟨bytes "pv-1", [], 2, [1], 5, none, none⟩

/-- A descriptor with an NFS source but a nil ClaimRef (as ProvisionU in
fact returns, since the controller sets ClaimRef only after Provision). -/
def pvNoClaimRef : PersistentVolume :=
  ⟨bytes "pv-1", [], 2, [1], 5, some ⟨bytes "s", bytes "/export/ns-pv-1", false⟩, none⟩

/-- A host state where the sample export is already mounted but its
per-volume directory is absent (for instance already archived). -/
def fsMounted : FS := ⟨[mountPoint (bytes "s") (bytes "/export")], []⟩

/-- The descriptor Provision builds for the sample request against
server s and export /export. -/
def pvSample : PersistentVolume :=
  ⟨bytes "pv-1",
    [(tenantKey, bytes "acme"), (stackKey, bytes "web"), (serviceKey, bytes "svc")],
    2, [1], 5,
    some ⟨bytes "s", bytes "/export/acme-web-svc-pv-1", false⟩, none⟩

/-- Sample selector-free request against a clean export path. -/
def oGood : VolumeOptions := mkOpts false (paramsSP "s" "/export")

/-- Sample selector-free request whose export path carries a trailing
slash (not clean). -/
def oSlash : VolumeOptions := mkOpts false (paramsSP "s" "/export/")

/-- The Provision run on the trailing-slash request. -/
def cxProv : PRes := Provision envAllOK fsEmpty oSlash

/-- The Delete run handed the descriptor of that Provision unmodified. -/
def cxDel : Option DRes := Delete envAllOK cxProv.fs (getPV cxProv.res)

end NFSProv

namespace NFSProv

/- ===== Theorems: separator algebra ===== -/

/-- Joining two separator-free strings around a separator is unambiguous. -/
theorem sepSplitEq (sep : Nat) :
    ∀ a b x y : Bytes, sep ∉ a → sep ∉ b →
      a ++ sep :: x = b ++ sep :: y → a = b ∧ x = y := by
  intro a
  induction a with
  | nil =>
    intro b x y _ hb h
    cases b with
    | nil => simpa using h
    | cons c b2 =>
      simp only [List.nil_append, List.cons_append, List.cons.injEq] at h
      obtain ⟨h1, -⟩ := h
      exact absurd (h1 ▸ List.mem_cons_self c b2) hb
  | cons c a2 ih =>
    intro b x y ha hb h
    cases b with
    | nil =>
      simp only [List.cons_append, List.nil_append, List.cons.injEq] at h
      obtain ⟨h1, -⟩ := h
      exact absurd (h1 ▸ List.mem_cons_self c a2) ha
    | cons d b2 =>
      simp only [List.cons_append, List.cons.injEq] at h
      obtain ⟨rfl, h2⟩ := h
      have ha2 : sep ∉ a2 := fun hx => ha (List.mem_cons_of_mem _ hx)
      have hb2 : sep ∉ b2 := fun hx => hb (List.mem_cons_of_mem _ hx)
      obtain ⟨rfl, rfl⟩ := ih b2 x y ha2 hb2 h2
      exact ⟨rfl, rfl⟩

/- ===== Theorems: splitSep and joinSep ===== -/

/-- splitSep never returns the empty list of groups. -/
theorem splitSep_ne_nil : ∀ s : Bytes, splitSep s ≠ [] := by
  intro s
  induction s with
  | nil => simp [splitSep]
  | cons b rest ih =>
    by_cases hb : b = 47
    · simp [splitSep, hb]
    · rw [splitSep, if_neg hb]
      cases h : splitSep rest with
      | nil => exact absurd h ih
      | cons g gs => simp

/-- joinSep of a single group. -/
theorem joinSep_single (c : Bytes) : joinSep [c] = c := rfl

/-- joinSep of at least two groups. -/
theorem joinSep_cons2 (c d : Bytes) (cs : List Bytes) :
    joinSep (c :: d :: cs) = c ++ 47 :: joinSep (d :: cs) := rfl

/-- joinSep of a nonempty tail. -/
theorem joinSep_cons (c : Bytes) (cs : List Bytes) (h : cs ≠ []) :
    joinSep (c :: cs) = c ++ 47 :: joinSep cs := by
  cases cs with
  | nil => exact absurd rfl h
  | cons d cs2 => rfl

/-- joinSep undoes splitSep. -/
theorem joinSep_splitSep : ∀ s : Bytes, joinSep (splitSep s) = s := by
  intro s
  induction s with
  | nil => rfl
  | cons b rest ih =>
    by_cases hb : b = 47
    · subst hb
      rw [splitSep, if_pos rfl, joinSep_cons _ _ (splitSep_ne_nil rest), ih]
      rfl
    · rw [splitSep, if_neg hb]
      cases h : splitSep rest with
      | nil => exact absurd h (splitSep_ne_nil rest)
      | cons g gs =>
        rw [h] at ih
        cases gs with
        | nil =>
          simp only [joinSep_single] at ih
          simp [joinSep_single, ih]
        | cons g2 gs2 =>
          simp only [joinSep_cons2] at ih ⊢
          rw [← ih]
          simp

/-- splitSep distributes over concatenation at a separator. -/
theorem splitSep_append (s t : Bytes) :
    splitSep (s ++ 47 :: t) = splitSep s ++ splitSep t := by
  induction s with
  | nil => simp [splitSep]
  | cons b s ih =>
    by_cases hb : b = 47
    · subst hb
      simp only [List.cons_append]
      rw [splitSep, if_pos rfl, ih, splitSep, if_pos rfl]
      rfl
    · simp only [List.cons_append]
      rw [splitSep, if_neg hb, ih]
      cases h : splitSep s with
      | nil => exact absurd h (splitSep_ne_nil s)
      | cons g gs =>
        rw [splitSep, if_neg hb, h]
        simp

/-- A separator-free string is one group. -/
theorem splitSep_no_sep : ∀ s : Bytes, 47 ∉ s → splitSep s = [s] := by
  intro s
  induction s with
  | nil => intro _; rfl
  | cons b rest ih =>
    intro h
    have hb : b ≠ 47 := fun e => h (e ▸ List.mem_cons_self b rest)
    have hr : 47 ∉ rest := fun hx => h (List.mem_cons_of_mem _ hx)
    rw [splitSep, if_neg hb, ih hr]

end NFSProv

namespace NFSProv

/- ===== Theorems: cleanComps and goClean on already-clean paths ===== -/

/-- cleanStep pushes a plain component. -/
theorem cleanStep_comp (r : Bool) (acc : List Bytes) (c : Bytes)
    (h : isCompB c = true) : cleanStep r acc c = c :: acc := by
  simp only [isCompB, decide_eq_true_eq] at h
  rw [cleanStep.eq_def, if_neg, if_neg h.2.2.1]
  rintro (h1 | h1)
  · exact h.1 h1
  · exact h.2.1 h1

/-- cleanStep ignores an empty component. -/
theorem cleanStep_empty (r : Bool) (acc : List Bytes) :
    cleanStep r acc [] = acc := by
  rw [cleanStep.eq_def, if_pos (Or.inl rfl)]

/-- Folding cleanStep over plain components stacks them in reverse. -/
theorem foldl_cleanStep_good (r : Bool) :
    ∀ (cs : List Bytes) (acc : List Bytes), (∀ c ∈ cs, isCompB c = true) →
      cs.foldl (cleanStep r) acc = cs.reverse ++ acc := by
  intro cs
  induction cs with
  | nil => intro acc _; simp
  | cons c cs ih =>
    intro acc h
    rw [List.foldl_cons, cleanStep_comp r acc c (h c (List.mem_cons_self c cs)),
      ih (c :: acc) (fun d hd => h d (List.mem_cons_of_mem _ hd))]
    simp

/-- cleanComps leaves a list of plain components unchanged. -/
theorem cleanComps_good (r : Bool) (cs : List Bytes)
    (h : ∀ c ∈ cs, isCompB c = true) : cleanComps r cs = cs := by
  rw [cleanComps, foldl_cleanStep_good r cs [] h]
  simp

/-- cleanComps skips a leading empty component. -/
theorem cleanComps_cons_empty (r : Bool) (cs : List Bytes) :
    cleanComps r ([] :: cs) = cleanComps r cs := by
  rw [cleanComps, cleanComps, List.foldl_cons, cleanStep_empty]

/-- cleanComps skips a trailing empty component. -/
theorem cleanComps_append_empty (r : Bool) (cs : List Bytes) :
    cleanComps r (cs ++ [[]]) = cleanComps r cs := by
  rw [cleanComps, cleanComps, List.foldl_append, List.foldl_cons,
    cleanStep_empty, List.foldl_nil]

/-- goClean fixes an already-clean absolute path. -/
theorem goClean_goodAbs (p : Bytes) (h : goodAbsB p = true) : goClean p = p := by
  cases p with
  | nil => simp [goodAbsB] at h
  | cons b rest =>
    simp only [goodAbsB, Bool.and_eq_true, beq_iff_eq, decide_eq_true_eq,
      List.all_eq_true] at h
    obtain ⟨rfl, -, hall⟩ := h
    rw [goClean]
    simp only [beq_self_eq_true, if_pos rfl]
    rw [splitSep, if_pos rfl, cleanComps_cons_empty,
      cleanComps_good true (splitSep rest) hall, joinSep_splitSep]
    simp

/-- Appending a plain component keeps an absolute path clean. -/
theorem goodAbs_extend (p n : Bytes) (hp : goodAbsB p = true)
    (hn : isCompB n = true) : goodAbsB (p ++ 47 :: n) = true := by
  cases p with
  | nil => simp [goodAbsB] at hp
  | cons b rest =>
    simp only [goodAbsB, Bool.and_eq_true, beq_iff_eq, decide_eq_true_eq,
      List.all_eq_true] at hp
    obtain ⟨rfl, -, hall⟩ := hp
    have h47 : 47 ∉ n := by
      simp only [isCompB, decide_eq_true_eq] at hn
      exact hn.2.2.2
    simp only [List.cons_append, goodAbsB, Bool.and_eq_true, beq_iff_eq,
      decide_eq_true_eq, List.all_eq_true]
    refine ⟨by simp, by simp, ?_⟩
    rw [splitSep_append, splitSep_no_sep n h47]
    intro c hc
    rcases List.mem_append.mp hc with hc | hc
    · exact hall c hc
    · rw [List.mem_singleton.mp hc]; exact hn

/-- filepath.Join of a clean absolute path and a plain component is plain
concatenation. -/
theorem goJoin_good (p n : Bytes) (hp : goodAbsB p = true)
    (hn : isCompB n = true) : goJoin p n = p ++ 47 :: n := by
  cases p with
  | nil => simp [goodAbsB] at hp
  | cons b rest =>
    rw [goJoin, goJoinL]
    simp only [List.dropWhile, List.isEmpty_cons]
    rw [joinSep_cons2, joinSep_single]
    exact goClean_goodAbs _ (goodAbs_extend (b :: rest) n hp hn)

/-- dropWhile past a block without the separator. -/
theorem dropWhile_ne47_append (l m : Bytes) (h : 47 ∉ l) :
    (l ++ m).dropWhile (fun b => b != 47) = m.dropWhile (fun b => b != 47) := by
  induction l with
  | nil => rfl
  | cons b l ih =>
    have hb : b ≠ 47 := fun e => h (e ▸ List.mem_cons_self b l)
    rw [List.cons_append, List.dropWhile_cons]
    simp only [bne_iff_ne, ne_eq, hb, not_false_eq_true, if_pos]
    exact ih (fun hx => h (List.mem_cons_of_mem _ hx))

/-- goClean strips a trailing slash from a clean absolute path. -/
theorem goClean_trailing (p : Bytes) (hp : goodAbsB p = true) :
    goClean (p ++ [47]) = p := by
  cases p with
  | nil => simp [goodAbsB] at hp
  | cons b rest =>
    simp only [goodAbsB, Bool.and_eq_true, beq_iff_eq, decide_eq_true_eq,
      List.all_eq_true] at hp
    obtain ⟨rfl, -, hall⟩ := hp
    rw [List.cons_append, goClean]
    simp only [beq_self_eq_true, if_pos rfl]
    have h1 : rest ++ [47] = rest ++ 47 :: ([] : Bytes) := rfl
    rw [splitSep, if_pos rfl, cleanComps_cons_empty, h1, splitSep_append]
    have h2 : splitSep ([] : Bytes) = [[]] := rfl
    rw [h2, cleanComps_append_empty, cleanComps_good true (splitSep rest) hall,
      joinSep_splitSep]
    simp

/-- path.Dir of a clean absolute path extended by a plain component gives
the path back. -/
theorem goDir_extend (p n : Bytes) (hp : goodAbsB p = true)
    (hn : isCompB n = true) : goDir (p ++ 47 :: n) = p := by
  have h47 : 47 ∉ n.reverse := by
    simp only [isCompB, decide_eq_true_eq] at hn
    simpa using hn.2.2.2
  rw [goDir, dirPart, List.reverse_append, List.reverse_cons]
  have h1 : (n.reverse ++ [47]) ++ p.reverse = n.reverse ++ 47 :: p.reverse := by
    simp
  rw [h1, dropWhile_ne47_append n.reverse (47 :: p.reverse) h47,
    List.dropWhile_cons]
  simp only [bne_self_eq_false, Bool.false_eq_true, if_neg, ite_false]
  rw [List.reverse_cons, List.reverse_reverse]
  exact goClean_trailing p hp

end NFSProv

namespace NFSProv

/- ===== Theorems: queryEscape ===== -/

/-- queryEscape over a cons. -/
theorem queryEscape_cons (b : Nat) (s : Bytes) :
    queryEscape (b :: s) = escByte b ++ queryEscape s := by
  simp [queryEscape]

/-- An unreserved byte is not the percent, plus or slash byte. -/
theorem isUnreservedB_ne (b : Nat) (h : isUnreservedB b = true) :
    b ≠ 37 ∧ b ≠ 43 ∧ b ≠ 47 := by
  simp only [isUnreservedB, Bool.or_eq_true, Bool.and_eq_true,
    decide_eq_true_eq, beq_iff_eq] at h
  omega

/-- The escaping of one byte never contains a slash. -/
theorem escByte_ne47 (b : Nat) : 47 ∉ escByte b := by
  rw [escByte]
  split
  · rename_i h
    simp only [List.mem_singleton]
    exact fun e => (isUnreservedB_ne b h).2.2 e.symm
  · split
    · simp
    · simp only [List.mem_cons, List.not_mem_nil]
      rintro (h | h | h | h)
      · omega
      · rw [hexUpper] at h; split at h <;> omega
      · rw [hexUpper] at h; split at h <;> omega
      · exact h

/-- queryEscape output never contains a slash. -/
theorem esc_no47 (s : Bytes) : 47 ∉ queryEscape s := by
  induction s with
  | nil => simp [queryEscape]
  | cons b s ih =>
    rw [queryEscape_cons]
    intro h
    rcases List.mem_append.mp h with h | h
    · exact escByte_ne47 b h
    · exact ih h

/-- hexVal undoes hexUpper on a hex digit value. -/
theorem hexVal_hexUpper (x : Nat) (h : x < 16) : hexVal (hexUpper x) = x := by
  rw [hexUpper, hexVal]
  split
  · split <;> omega
  · split <;> omega

/-- The decoder undoes the escaping of one byte in front of anything. -/
theorem unescapeQ_escByte (b : Nat) (hb : b < 256) (t : Bytes) :
    unescapeQ (escByte b ++ t) = b :: unescapeQ t := by
  rw [escByte]
  split
  · rename_i h
    obtain ⟨h37, h43, -⟩ := isUnreservedB_ne b h
    rw [List.singleton_append, unescapeQ, if_neg h37, if_neg h43]
  · split
    · rename_i h32
      rw [List.singleton_append, unescapeQ,
        if_neg (by omega : ¬(43 : Nat) = 37), if_pos rfl, h32]
    · rw [List.cons_append, List.cons_append, List.singleton_append,
        unescapeQ, if_pos rfl]
      simp only [List.headD_cons, List.tail_cons]
      rw [hexVal_hexUpper (b / 16) (by omega), hexVal_hexUpper (b % 16) (by omega)]
      congr 1
      omega

/-- The decoder undoes queryEscape on byte strings. -/
theorem unescapeQ_queryEscape (s : Bytes) (h : ∀ b ∈ s, b < 256) :
    unescapeQ (queryEscape s) = s := by
  induction s with
  | nil => simp [queryEscape, unescapeQ]
  | cons b s ih =>
    rw [queryEscape_cons, unescapeQ_escByte b (h b (List.mem_cons_self b s)),
      ih (fun d hd => h d (List.mem_cons_of_mem _ hd))]

/-- queryEscape is injective on byte strings. -/
theorem queryEscape_inj (p q : Bytes) (hp : ∀ b ∈ p, b < 256)
    (hq : ∀ b ∈ q, b < 256) (h : queryEscape p = queryEscape q) : p = q := by
  have h2 := congrArg unescapeQ h
  rwa [unescapeQ_queryEscape p hp, unescapeQ_queryEscape q hq] at h2

end NFSProv

namespace NFSProv

/- ===== Theorems: components produced by the code ===== -/

/-- pvName output is a plain path component once its fields are slash-free. -/
theorem pvName_comp (t s v n : Bytes) (ht : 47 ∉ t) (hs : 47 ∉ s)
    (hv : 47 ∉ v) (hn : 47 ∉ n) :
    isCompB (pvName t s v n) = true := by
  simp only [isCompB, pvName, decide_eq_true_eq]
  refine ⟨?_, ?_, ?_, ?_⟩
  · simp
  · intro h
    have := congrArg List.length h
    simp [List.length_append] at this
    omega
  · intro h
    have := congrArg List.length h
    simp [List.length_append] at this
    omega
  · intro h
    simp only [List.mem_append, List.mem_cons] at h
    have h45 : (47 : Nat) ≠ 45 := by omega
    tauto

/-- Prepending the archive marker keeps a plain component plain. -/
theorem archived_comp (c : Bytes) (h : isCompB c = true) :
    isCompB (archivedPre ++ c) = true := by
  simp only [isCompB, decide_eq_true_eq] at h ⊢
  have hlen : archivedPre.length = 9 := by decide
  have h47 : 47 ∉ archivedPre := by decide
  refine ⟨?_, ?_, ?_, ?_⟩
  · intro hx
    have := congrArg List.length hx
    simp only [List.length_append, hlen, List.length_nil] at this
    omega
  · intro hx
    have := congrArg List.length hx
    simp only [List.length_append, hlen, List.length_cons, List.length_nil] at this
    omega
  · intro hx
    have := congrArg List.length hx
    simp only [List.length_append, hlen, List.length_cons, List.length_nil] at this
    omega
  · intro hx
    rcases List.mem_append.mp hx with hx | hx
    · exact h47 hx
    · exact h.2.2.2 hx

/-- The archive name differs from the original name. -/
theorem archived_ne (c : Bytes) : archivedPre ++ c ≠ c := by
  intro h
  have := congrArg List.length h
  have hlen : archivedPre.length = 9 := by decide
  simp [List.length_append, hlen] at this

/-- queryEscape of a clean absolute path is a plain component. -/
theorem escGoodComp (p : Bytes) (hp : goodAbsB p = true) :
    isCompB (queryEscape p) = true := by
  cases p with
  | nil => simp [goodAbsB] at hp
  | cons b rest =>
    simp only [goodAbsB, Bool.and_eq_true, beq_iff_eq] at hp
    obtain ⟨rfl, -⟩ := hp
    rw [queryEscape_cons]
    have he : escByte 47 = [37, 50, 70] := by decide
    rw [he]
    simp only [isCompB, decide_eq_true_eq, List.cons_append]
    refine ⟨by simp, by simp, by simp, ?_⟩
    intro hx
    rcases List.mem_cons.mp hx with hx | hx
    · omega
    rcases List.mem_cons.mp hx with hx | hx
    · omega
    rcases List.mem_cons.mp hx with hx | hx
    · omega
    · exact esc_no47 rest hx

/-- mountPoint written with its leading slash made explicit. -/
theorem mountPoint_shape (s p : Bytes) :
    mountPoint s p =
      47 :: (bytes "persistentvolumes" ++ 47 :: (s ++ 47 :: queryEscape p)) := by
  have h : mountPathB = 47 :: bytes "persistentvolumes" := by decide
  rw [mountPoint, h]
  simp

/-- The derived mount point is a clean absolute path whenever the server
name is a plain component and the remote path is clean and absolute. -/
theorem mountPoint_goodAbs (s p : Bytes) (hs : isCompB s = true)
    (hp : goodAbsB p = true) : goodAbsB (mountPoint s p) = true := by
  rw [mountPoint_shape]
  have h47s : 47 ∉ s := by
    simp only [isCompB, decide_eq_true_eq] at hs
    exact hs.2.2.2
  have h47pv : 47 ∉ bytes "persistentvolumes" := by decide
  simp only [goodAbsB, Bool.and_eq_true, beq_iff_eq, decide_eq_true_eq,
    List.all_eq_true]
  refine ⟨by simp, by simp, ?_⟩
  rw [splitSep_append _ _, splitSep_no_sep _ h47pv, splitSep_append _ _,
    splitSep_no_sep _ h47s, splitSep_no_sep _ (esc_no47 p)]
  intro c hc
  rcases List.mem_append.mp hc with hc | hc
  · rw [List.mem_singleton.mp hc]; decide
  rcases List.mem_append.mp hc with hc | hc
  · rw [List.mem_singleton.mp hc]; exact hs
  · rw [List.mem_singleton.mp hc]; exact escGoodComp p hp

end NFSProv

namespace NFSProv

/- ===== Theorems: addDir, osRename, isMounted ===== -/

/-- Membership after addDir. -/
theorem mem_addDir (x p : Bytes) (l : List Bytes) :
    x ∈ addDir p l ↔ x = p ∨ x ∈ l := by
  rw [addDir]
  split
  · rename_i h
    constructor
    · exact Or.inr
    · rintro (rfl | hx)
      · exact h
      · exact hx
  · simp [List.mem_cons]

/-- The renamed-away source is gone after a successful osRename to a
different destination. -/
theorem osRename_removes (fs : FS) (o n : Bytes) (ho : o ∈ fs.dirs)
    (hne : n ≠ o) :
    osRename fs o n =
      (none, ⟨fs.mounts, addDir n (fs.dirs.filter (fun d => d != o))⟩) ∧
    o ∉ addDir n (fs.dirs.filter (fun d => d != o)) := by
  constructor
  · rw [osRename, if_pos ho]
  · intro hx
    rcases (mem_addDir o n _).mp hx with rfl | hx
    · exact hne rfl
    · have := (List.mem_filter.mp hx).2
      simp at this

/-- osRename on a missing source reports the OS error and changes nothing. -/
theorem osRename_miss (fs : FS) (o n : Bytes) (ho : o ∉ fs.dirs) :
    osRename fs o n = (some .renameNoEnt, fs) := by
  rw [osRename, if_neg ho]

/- ===== Theorems: ensureMount branch behavior ===== -/

/-- ensureMount returns at once when the mount point is listed as mounted. -/
theorem ensureMount_already (env : Env) (fs : FS) (s p : Bytes)
    (h : isMounted env fs (mountPoint s p) = true) :
    ensureMount env fs s p = ⟨mountPoint s p, none, fs, []⟩ := by
  rw [ensureMount]
  simp only [h, if_pos]

/-- ensureMount when not mounted, with mkdir and mount succeeding. -/
theorem ensureMount_mountOk (env : Env) (fs : FS) (s p : Bytes)
    (h1 : isMounted env fs (mountPoint s p) = false)
    (h2 : env.mkdirOK (mountPoint s p) = true)
    (h3 : env.mountOK s p = true) :
    ensureMount env fs s p =
      ⟨mountPoint s p, none,
        ⟨mountPoint s p :: fs.mounts, addDir (mountPoint s p) fs.dirs⟩,
        [.mkdirAll (mountPoint s p), .mountCmd s p (mountPoint s p)]⟩ := by
  rw [ensureMount]
  simp only [h1, h2, h3]
  simp

/-- ensureMount when not mounted and mkdir succeeds but the mount command
fails: the freshly created directory stays behind. -/
theorem ensureMount_mountFail (env : Env) (fs : FS) (s p : Bytes)
    (h1 : isMounted env fs (mountPoint s p) = false)
    (h2 : env.mkdirOK (mountPoint s p) = true)
    (h3 : env.mountOK s p = false) :
    ensureMount env fs s p =
      ⟨mountPoint s p, some .mountCmdFail,
        ⟨fs.mounts, addDir (mountPoint s p) fs.dirs⟩,
        [.mkdirAll (mountPoint s p), .mountCmd s p (mountPoint s p)]⟩ := by
  rw [ensureMount]
  simp only [h1, h2, h3]
  simp

/-- ensureMount when not mounted and mkdir fails: nothing changes. -/
theorem ensureMount_mkdirFail (env : Env) (fs : FS) (s p : Bytes)
    (h1 : isMounted env fs (mountPoint s p) = false)
    (h2 : env.mkdirOK (mountPoint s p) = false) :
    ensureMount env fs s p =
      ⟨mountPoint s p, some .mkdirFail, fs, [.mkdirAll (mountPoint s p)]⟩ := by
  rw [ensureMount]
  simp only [h1, h2]
  simp

/-- The returned mount point is always the derived one. -/
theorem ensureMount_mp (env : Env) (fs : FS) (s p : Bytes) :
    (ensureMount env fs s p).mp = mountPoint s p := by
  by_cases h1 : isMounted env fs (mountPoint s p) = true
  · rw [ensureMount_already env fs s p h1]
  · rw [Bool.not_eq_true] at h1
    by_cases h2 : env.mkdirOK (mountPoint s p) = true
    · by_cases h3 : env.mountOK s p = true
      · rw [ensureMount_mountOk env fs s p h1 h2 h3]
      · rw [Bool.not_eq_true] at h3
        rw [ensureMount_mountFail env fs s p h1 h2 h3]
    · rw [Bool.not_eq_true] at h2
      rw [ensureMount_mkdirFail env fs s p h1 h2]

/-- A successful ensureMount leaves the mount point in the mount table,
written into a full characterization of the result. -/
theorem ensureMount_ok_inv (env : Env) (fs : FS) (s p : Bytes)
    (h : (ensureMount env fs s p).err = none) :
    ensureMount env fs s p =
      ⟨mountPoint s p, none, (ensureMount env fs s p).fs,
        (ensureMount env fs s p).tr⟩ ∧
    mountPoint s p ∈ (ensureMount env fs s p).fs.mounts ∧
    ((ensureMount env fs s p).fs.dirs = fs.dirs ∨
     (ensureMount env fs s p).fs.dirs = addDir (mountPoint s p) fs.dirs) := by
  by_cases h1 : isMounted env fs (mountPoint s p) = true
  · rw [ensureMount_already env fs s p h1]
    refine ⟨rfl, ?_, Or.inl rfl⟩
    simp only [isMounted, Bool.and_eq_true, decide_eq_true_eq] at h1
    exact h1.2
  · rw [Bool.not_eq_true] at h1
    by_cases h2 : env.mkdirOK (mountPoint s p) = true
    · by_cases h3 : env.mountOK s p = true
      · rw [ensureMount_mountOk env fs s p h1 h2 h3]
        exact ⟨rfl, List.mem_cons_self _ _, Or.inr rfl⟩
      · rw [Bool.not_eq_true] at h3
        rw [ensureMount_mountFail env fs s p h1 h2 h3] at h
        simp at h
    · rw [Bool.not_eq_true] at h2
      rw [ensureMount_mkdirFail env fs s p h1 h2] at h
      simp at h

/-- A failed ensureMount never touches the mount table, and at most adds
the mount-point directory. -/
theorem ensureMount_err_inv (env : Env) (fs : FS) (s p : Bytes) (e : SysErr)
    (h : (ensureMount env fs s p).err = some e) :
    (ensureMount env fs s p).fs.mounts = fs.mounts ∧
    ((ensureMount env fs s p).fs.dirs = fs.dirs ∨
     (ensureMount env fs s p).fs.dirs = addDir (mountPoint s p) fs.dirs) := by
  by_cases h1 : isMounted env fs (mountPoint s p) = true
  · rw [ensureMount_already env fs s p h1] at h ⊢
    simp at h
  · rw [Bool.not_eq_true] at h1
    by_cases h2 : env.mkdirOK (mountPoint s p) = true
    · by_cases h3 : env.mountOK s p = true
      · rw [ensureMount_mountOk env fs s p h1 h2 h3] at h
        simp at h
      · rw [Bool.not_eq_true] at h3
        rw [ensureMount_mountFail env fs s p h1 h2 h3]
        exact ⟨rfl, Or.inr rfl⟩
    · rw [Bool.not_eq_true] at h2
      rw [ensureMount_mkdirFail env fs s p h1 h2]
      exact ⟨rfl, Or.inl rfl⟩

/-- ensureMount performs at most one mount command. -/
theorem ensureMount_count (env : Env) (fs : FS) (s p : Bytes) :
    mountEvCount (ensureMount env fs s p).tr ≤ 1 := by
  by_cases h1 : isMounted env fs (mountPoint s p) = true
  · rw [ensureMount_already env fs s p h1]
    simp [mountEvCount]
  · rw [Bool.not_eq_true] at h1
    by_cases h2 : env.mkdirOK (mountPoint s p) = true
    · by_cases h3 : env.mountOK s p = true
      · rw [ensureMount_mountOk env fs s p h1 h2 h3]
        simp [mountEvCount]
      · rw [Bool.not_eq_true] at h3
        rw [ensureMount_mountFail env fs s p h1 h2 h3]
        simp [mountEvCount]
    · rw [Bool.not_eq_true] at h2
      rw [ensureMount_mkdirFail env fs s p h1 h2]
      simp [mountEvCount]

end NFSProv

namespace NFSProv

/- ===== Theorems: Provision and Delete branch behavior ===== -/

/-- A selector-bearing request fails first, before any validation or
filesystem action, in both variants. -/
theorem Provision_selector (env : Env) (fs : FS) (o : VolumeOptions)
    (h : o.hasSelector = true) :
    Provision env fs o = ⟨.error .unsupportedSelector, fs, []⟩ := by
  rw [Provision, if_pos h]

/-- Same first check in the unnamed variant. -/
theorem ProvisionU_selector (env : Env) (fs : FS) (o : VolumeOptions)
    (h : o.hasSelector = true) :
    ProvisionU env fs o = ⟨.error .unsupportedSelector, fs, []⟩ := by
  rw [ProvisionU, if_pos h]

/-- With no selector and a key missing, Provision fails with the missing
parameter error and does nothing. -/
theorem Provision_missing (env : Env) (fs : FS) (o : VolumeOptions)
    (hsel : o.hasSelector = false)
    (h : (inMap nfsPathKey o.parameters && inMap nfsServerKey o.parameters) = false) :
    Provision env fs o = ⟨.error .missingParameter, fs, []⟩ := by
  rw [Provision]
  simp only [hsel, Bool.false_eq_true, if_false, h, Bool.not_false, if_pos]

/-- Same second check in the unnamed variant. -/
theorem ProvisionU_missing (env : Env) (fs : FS) (o : VolumeOptions)
    (hsel : o.hasSelector = false)
    (h : (inMap nfsPathKey o.parameters && inMap nfsServerKey o.parameters) = false) :
    ProvisionU env fs o = ⟨.error .missingParameter, fs, []⟩ := by
  rw [ProvisionU]
  simp only [hsel, Bool.false_eq_true, if_false, h, Bool.not_false, if_pos]

/-- Provision when validation passes and ensureMount reports an error. -/
theorem Provision_mountErr (env : Env) (fs : FS) (o : VolumeOptions)
    (e : SysErr)
    (hsel : o.hasSelector = false)
    (h1 : inMap nfsPathKey o.parameters = true)
    (h2 : inMap nfsServerKey o.parameters = true)
    (hm : (ensureMount env fs (mapGet o.parameters nfsServerKey)
        (mapGet o.parameters nfsPathKey)).err = some e) :
    Provision env fs o = ⟨.error (.mountWrap e),
      (ensureMount env fs (mapGet o.parameters nfsServerKey)
        (mapGet o.parameters nfsPathKey)).fs,
      (ensureMount env fs (mapGet o.parameters nfsServerKey)
        (mapGet o.parameters nfsPathKey)).tr⟩ := by
  rw [Provision]
  simp only [hsel, Bool.false_eq_true, if_false, h1, h2, Bool.and_self,
    Bool.not_true, if_false, hm]

/-- Provision when validation passes, ensureMount succeeds and the
per-volume MkdirAll succeeds: the full success result. -/
theorem Provision_ok (env : Env) (fs : FS) (o : VolumeOptions)
    (hsel : o.hasSelector = false)
    (h1 : inMap nfsPathKey o.parameters = true)
    (h2 : inMap nfsServerKey o.parameters = true)
    (hm : (ensureMount env fs (mapGet o.parameters nfsServerKey)
        (mapGet o.parameters nfsPathKey)).err = none)
    (hd : env.mkdirOK (goJoin (mountPoint (mapGet o.parameters nfsServerKey)
        (mapGet o.parameters nfsPathKey))
        (pvName o.tenant o.stack o.service o.pvname)) = true) :
    Provision env fs o = ⟨.ok
      { name := o.pvname
        labels := [(tenantKey, o.tenant), (stackKey, o.stack), (serviceKey, o.service)]
        reclaimPolicy := o.reclaimPolicy
        accessModes := o.accessModes
        capacityStorage := o.requestsStorage
        nfs := some ⟨mapGet o.parameters nfsServerKey,
          goJoin (mapGet o.parameters nfsPathKey)
            (pvName o.tenant o.stack o.service o.pvname), false⟩
        claimRef := none },
      ⟨(ensureMount env fs (mapGet o.parameters nfsServerKey)
          (mapGet o.parameters nfsPathKey)).fs.mounts,
        addDir (goJoin (mountPoint (mapGet o.parameters nfsServerKey)
            (mapGet o.parameters nfsPathKey))
          (pvName o.tenant o.stack o.service o.pvname))
          (ensureMount env fs (mapGet o.parameters nfsServerKey)
            (mapGet o.parameters nfsPathKey)).fs.dirs⟩,
      (ensureMount env fs (mapGet o.parameters nfsServerKey)
          (mapGet o.parameters nfsPathKey)).tr ++
        [.mkdirAll (goJoin (mountPoint (mapGet o.parameters nfsServerKey)
            (mapGet o.parameters nfsPathKey))
          (pvName o.tenant o.stack o.service o.pvname))]⟩ := by
  rw [Provision]
  simp only [hsel, Bool.false_eq_true, if_false, h1, h2, Bool.and_self,
    Bool.not_true, if_false, hm, ensureMount_mp, hd, if_pos]

/-- Provision when validation passes, ensureMount succeeds and the
per-volume MkdirAll fails: the directory-create error path. -/
theorem Provision_dirFail (env : Env) (fs : FS) (o : VolumeOptions)
    (hsel : o.hasSelector = false)
    (h1 : inMap nfsPathKey o.parameters = true)
    (h2 : inMap nfsServerKey o.parameters = true)
    (hm : (ensureMount env fs (mapGet o.parameters nfsServerKey)
        (mapGet o.parameters nfsPathKey)).err = none)
    (hd : env.mkdirOK (goJoin (mountPoint (mapGet o.parameters nfsServerKey)
        (mapGet o.parameters nfsPathKey))
        (pvName o.tenant o.stack o.service o.pvname)) = false) :
    Provision env fs o = ⟨.error .dirCreate,
      (ensureMount env fs (mapGet o.parameters nfsServerKey)
        (mapGet o.parameters nfsPathKey)).fs,
      (ensureMount env fs (mapGet o.parameters nfsServerKey)
          (mapGet o.parameters nfsPathKey)).tr ++
        [.mkdirAll (goJoin (mountPoint (mapGet o.parameters nfsServerKey)
            (mapGet o.parameters nfsPathKey))
          (pvName o.tenant o.stack o.service o.pvname))]⟩ := by
  rw [Provision]
  simp only [hsel, Bool.false_eq_true, if_false, h1, h2, Bool.and_self,
    Bool.not_true, if_false, hm, ensureMount_mp, hd]

/-- Delete after a successful remount: the rename of the recomputed name
under the recomputed mount point, whatever os.Rename then reports. -/
theorem Delete_run (env : Env) (fs : FS) (v : PersistentVolume)
    (src : NFSSource) (pvn : Bytes)
    (hv : v.nfs = some src)
    (hm : (ensureMount env fs src.server (goDir src.path)).err = none)
    (hpvn : pvn = pvName (mapGet v.labels tenantKey) (mapGet v.labels stackKey)
        (mapGet v.labels serviceKey) v.name) :
    Delete env fs v = some
      ⟨(osRename (ensureMount env fs src.server (goDir src.path)).fs
          (goJoin (mountPoint src.server (goDir src.path)) pvn)
          (goJoin (mountPoint src.server (goDir src.path)) (archivedPre ++ pvn))).1,
        (osRename (ensureMount env fs src.server (goDir src.path)).fs
          (goJoin (mountPoint src.server (goDir src.path)) pvn)
          (goJoin (mountPoint src.server (goDir src.path)) (archivedPre ++ pvn))).2,
        (ensureMount env fs src.server (goDir src.path)).tr ++
          [.rename (goJoin (mountPoint src.server (goDir src.path)) pvn)
            (goJoin (mountPoint src.server (goDir src.path)) (archivedPre ++ pvn))]⟩ := by
  rw [Delete]
  simp only [hv, hm, ensureMount_mp, hpvn]

/-- Delete when the remount itself fails: the raw error is returned. -/
theorem Delete_mountErr (env : Env) (fs : FS) (v : PersistentVolume)
    (src : NFSSource) (e : SysErr)
    (hv : v.nfs = some src)
    (hm : (ensureMount env fs src.server (goDir src.path)).err = some e) :
    Delete env fs v = some ⟨some e,
      (ensureMount env fs src.server (goDir src.path)).fs,
      (ensureMount env fs src.server (goDir src.path)).tr⟩ := by
  rw [Delete]
  simp only [hv, hm]

/-- The labels Provision stores resolve back to the grouping fields. -/
theorem labels_roundtrip (t s v : Bytes) :
    mapGet [(tenantKey, t), (stackKey, s), (serviceKey, v)] tenantKey = t ∧
    mapGet [(tenantKey, t), (stackKey, s), (serviceKey, v)] stackKey = s ∧
    mapGet [(tenantKey, t), (stackKey, s), (serviceKey, v)] serviceKey = v := by
  have e1 : (tenantKey == tenantKey) = true := by decide
  have e2 : (stackKey == tenantKey) = false := by decide
  have e3 : (stackKey == stackKey) = true := by decide
  have e4 : (serviceKey == tenantKey) = false := by decide
  have e5 : (serviceKey == stackKey) = false := by decide
  have e6 : (serviceKey == serviceKey) = true := by decide
  refine ⟨?_, ?_, ?_⟩ <;>
    simp only [mapGet, List.lookup, e1, e2, e3, e4, e5, e6, Option.getD_some]

end NFSProv

namespace NFSProv

/- ===== Claim theorems ===== -/

/-- C5: a request carrying a claim selector makes Provision fail with the
UnsupportedSelector error, with no filesystem mutation and no syscall
attempted, and this check precedes any other validation (the statement
quantifies over all requests, including those with missing parameters);
both variants behave alike. -/
theorem C5_selector_first (env : Env) (fs : FS) (o : VolumeOptions)
    (h : o.hasSelector = true) :
    Provision env fs o = ⟨.error .unsupportedSelector, fs, []⟩ ∧
    ProvisionU env fs o = ⟨.error .unsupportedSelector, fs, []⟩ :=
  ⟨Provision_selector env fs o h, ProvisionU_selector env fs o h⟩

/-- C5 witness: a selector-bearing request with empty parameters still
gets UnsupportedSelector and leaves the empty state untouched. -/
theorem C5_selector_first_witness :
    (mkOpts true []).hasSelector = true ∧
    Provision envAllOK fsEmpty (mkOpts true []) =
      ⟨.error .unsupportedSelector, fsEmpty, []⟩ :=
  ⟨rfl, (C5_selector_first envAllOK fsEmpty (mkOpts true []) rfl).1⟩

/-- C6 counterexample: a request lacking both parameter keys but carrying
a selector returns UnsupportedSelector, not MissingParameter, so the claim
quantified over every key-lacking request fails. -/
theorem C6_counterexample :
    inMap nfsServerKey (mkOpts true []).parameters = false ∧
    inMap nfsPathKey (mkOpts true []).parameters = false ∧
    Provision envAllOK fsEmpty (mkOpts true []) =
      ⟨.error .unsupportedSelector, fsEmpty, []⟩ ∧
    ProvErr.unsupportedSelector ≠ ProvErr.missingParameter := by
  refine ⟨by decide, by decide, by decide, by decide⟩

/-- C6 amended: for selector-free requests, a missing server key or
remote-path key (or both) yields the MissingParameter error with no
filesystem mutation and no syscall, in both variants. -/
theorem C6_missingParameter (env : Env) (fs : FS) (o : VolumeOptions)
    (hsel : o.hasSelector = false)
    (h : inMap nfsPathKey o.parameters = false ∨
      inMap nfsServerKey o.parameters = false) :
    Provision env fs o = ⟨.error .missingParameter, fs, []⟩ ∧
    ProvisionU env fs o = ⟨.error .missingParameter, fs, []⟩ := by
  have hb : (inMap nfsPathKey o.parameters &&
      inMap nfsServerKey o.parameters) = false := by
    rcases h with h | h <;> simp [h]
  exact ⟨Provision_missing env fs o hsel hb, ProvisionU_missing env fs o hsel hb⟩

/-- C6 witness: a selector-free request holding only the server key fails
with MissingParameter and mutates nothing. -/
theorem C6_missingParameter_witness :
    (mkOpts false [(nfsServerKey, bytes "s")]).hasSelector = false ∧
    inMap nfsPathKey (mkOpts false [(nfsServerKey, bytes "s")]).parameters = false ∧
    Provision envAllOK fsEmpty (mkOpts false [(nfsServerKey, bytes "s")]) =
      ⟨.error .missingParameter, fsEmpty, []⟩ :=
  ⟨rfl, by decide,
    (C6_missingParameter envAllOK fsEmpty (mkOpts false [(nfsServerKey, bytes "s")])
      rfl (Or.inl (by decide))).1⟩

/-- C2 counterexample: two distinct grouping tuples of the same field
count collide, because a field may itself contain the dash separator. -/
theorem C2_counterexample :
    pvName (bytes "a-b") (bytes "c") (bytes "d") (bytes "e") =
      pvName (bytes "a") (bytes "b-c") (bytes "d") (bytes "e") ∧
    (bytes "a-b", bytes "c", bytes "d", bytes "e") ≠
      (bytes "a", bytes "b-c", bytes "d", bytes "e") := by
  refine ⟨by decide, by decide⟩

/-- C2 amended: pvName is injective across tuples whose three grouping
keys are dash-free; the trailing base name may contain dashes. -/
theorem C2_pvName_inj (t s v n t2 s2 v2 n2 : Bytes)
    (ht : 45 ∉ t) (hs : 45 ∉ s) (hv : 45 ∉ v)
    (ht2 : 45 ∉ t2) (hs2 : 45 ∉ s2) (hv2 : 45 ∉ v2)
    (h : pvName t s v n = pvName t2 s2 v2 n2) :
    t = t2 ∧ s = s2 ∧ v = v2 ∧ n = n2 := by
  rw [pvName, pvName] at h
  simp only [List.append_assoc, List.cons_append] at h
  obtain ⟨rfl, hr1⟩ := sepSplitEq 45 t t2 _ _ ht ht2 h
  obtain ⟨rfl, hr2⟩ := sepSplitEq 45 s s2 _ _ hs hs2 hr1
  obtain ⟨rfl, rfl⟩ := sepSplitEq 45 v v2 _ _ hv hv2 hr2
  exact ⟨rfl, rfl, rfl, rfl⟩

/-- C2 witness: the injectivity theorem applied at a concrete dash-free
tuple. -/
theorem C2_pvName_inj_witness :
    45 ∉ bytes "acme" ∧ 45 ∉ bytes "web" ∧ 45 ∉ bytes "svc" ∧
    (bytes "acme" = bytes "acme" ∧ bytes "web" = bytes "web" ∧
      bytes "svc" = bytes "svc" ∧ bytes "pv-1" = bytes "pv-1") :=
  ⟨by decide, by decide, by decide,
    C2_pvName_inj (bytes "acme") (bytes "web") (bytes "svc") (bytes "pv-1")
      (bytes "acme") (bytes "web") (bytes "svc") (bytes "pv-1")
      (by decide) (by decide) (by decide) (by decide) (by decide) (by decide) rfl⟩

/-- C4: once a first ensureMount call succeeds and its mount point is
visible in the readable mount table, a second call for the same target
performs no further syscall, returns the same mount point, and the two
calls together run the mount command at most once. -/
theorem C4_ensureMount_idempotent (env : Env) (fs : FS) (s p : Bytes)
    (hread : env.procReadable = true)
    (h1 : (ensureMount env fs s p).err = none) :
    (ensureMount env fs s p).mp
      = (ensureMount env (ensureMount env fs s p).fs s p).mp ∧
    ensureMount env (ensureMount env fs s p).fs s p
      = ⟨mountPoint s p, none, (ensureMount env fs s p).fs, []⟩ ∧
    mountEvCount ((ensureMount env fs s p).tr
      ++ (ensureMount env (ensureMount env fs s p).fs s p).tr) ≤ 1 := by
  obtain ⟨-, hmem, -⟩ := ensureMount_ok_inv env fs s p h1
  have hm2 : isMounted env (ensureMount env fs s p).fs (mountPoint s p) = true := by
    simp [isMounted, hread, hmem]
  have h2 := ensureMount_already env (ensureMount env fs s p).fs s p hm2
  refine ⟨by rw [ensureMount_mp, ensureMount_mp], h2, ?_⟩
  rw [h2]
  simpa using ensureMount_count env fs s p

/-- C4 witness: the idempotence theorem run at a concrete fresh target. -/
theorem C4_ensureMount_idempotent_witness :
    envAllOK.procReadable = true ∧
    (ensureMount envAllOK fsEmpty (bytes "s") (bytes "/export")).err = none ∧
    ensureMount envAllOK
        (ensureMount envAllOK fsEmpty (bytes "s") (bytes "/export")).fs
        (bytes "s") (bytes "/export")
      = ⟨mountPoint (bytes "s") (bytes "/export"), none,
          (ensureMount envAllOK fsEmpty (bytes "s") (bytes "/export")).fs, []⟩ :=
  ⟨rfl, by decide,
    (C4_ensureMount_idempotent envAllOK fsEmpty (bytes "s") (bytes "/export")
      rfl (by decide)).2.1⟩

/-- C8: when the backing directory no longer exists at the resolved path
(for instance already archived by an earlier Delete), Delete propagates
the OS rename error instead of reporting success, so repeated Delete calls
are not idempotent. -/
theorem C8_delete_propagates (env : Env) (fs : FS) (v : PersistentVolume)
    (src : NFSSource)
    (hv : v.nfs = some src)
    (hm : (ensureMount env fs src.server (goDir src.path)).err = none)
    (hmiss : goJoin (mountPoint src.server (goDir src.path))
        (pvName (mapGet v.labels tenantKey) (mapGet v.labels stackKey)
          (mapGet v.labels serviceKey) v.name)
        ∉ (ensureMount env fs src.server (goDir src.path)).fs.dirs) :
    Delete env fs v = some ⟨some .renameNoEnt,
      (ensureMount env fs src.server (goDir src.path)).fs,
      (ensureMount env fs src.server (goDir src.path)).tr ++
        [.rename
          (goJoin (mountPoint src.server (goDir src.path))
            (pvName (mapGet v.labels tenantKey) (mapGet v.labels stackKey)
              (mapGet v.labels serviceKey) v.name))
          (goJoin (mountPoint src.server (goDir src.path))
            (archivedPre ++ pvName (mapGet v.labels tenantKey)
              (mapGet v.labels stackKey) (mapGet v.labels serviceKey) v.name))]⟩ := by
  rw [Delete_run env fs v src _ hv hm rfl, osRename_miss _ _ _ hmiss]

/-- C8 witness: Delete on a descriptor whose directory is already gone,
over an already-mounted export, reports the missing-source rename error. -/
theorem C8_delete_propagates_witness :
    pvSample.nfs = some ⟨bytes "s", bytes "/export/acme-web-svc-pv-1", false⟩ ∧
    (ensureMount envAllOK fsMounted (bytes "s")
      (goDir (bytes "/export/acme-web-svc-pv-1"))).err = none ∧
    Delete envAllOK fsMounted pvSample = some ⟨some .renameNoEnt,
      (ensureMount envAllOK fsMounted (bytes "s")
        (goDir (bytes "/export/acme-web-svc-pv-1"))).fs,
      (ensureMount envAllOK fsMounted (bytes "s")
        (goDir (bytes "/export/acme-web-svc-pv-1"))).tr ++
        [.rename
          (goJoin (mountPoint (bytes "s") (goDir (bytes "/export/acme-web-svc-pv-1")))
            (pvName (mapGet pvSample.labels tenantKey) (mapGet pvSample.labels stackKey)
              (mapGet pvSample.labels serviceKey) pvSample.name))
          (goJoin (mountPoint (bytes "s") (goDir (bytes "/export/acme-web-svc-pv-1")))
            (archivedPre ++ pvName (mapGet pvSample.labels tenantKey)
              (mapGet pvSample.labels stackKey) (mapGet pvSample.labels serviceKey)
              pvSample.name))]⟩ :=
  ⟨rfl, by decide,
    C8_delete_propagates envAllOK fsMounted pvSample
      ⟨bytes "s", bytes "/export/acme-web-svc-pv-1", false⟩
      rfl (by decide) (by decide)⟩

/-- C10: Delete is total only when the descriptor holds a non-nil NFS
source: with a nil source the primary variant dereferences a nil pointer
immediately (modelled as none, a panic, rather than an error return); in
the unnamed variant a nil ClaimRef is likewise dereferenced unguarded once
the remount succeeds. -/
theorem C10_nil_deref (env : Env) (fs : FS) (v w : PersistentVolume)
    (src : NFSSource)
    (hv : v.nfs = none)
    (hw : w.nfs = some src)
    (hcr : w.claimRef = none)
    (hm : (ensureMountU env fs src.server (goDir src.path)
        (goJoin mountPathB src.server)).1 = none) :
    Delete env fs v = none ∧ DeleteU env fs w = none := by
  constructor
  · rw [Delete]
    simp only [hv]
  · rcases hE : ensureMountU env fs src.server (goDir src.path)
        (goJoin mountPathB src.server) with ⟨e1, fs1, tr1⟩
    rw [hE] at hm
    simp only at hm
    subst hm
    rw [DeleteU]
    simp only [hw, hE, hcr]

/-- C10 witness: a nil NFS source panics the primary Delete; a descriptor
with a source but nil ClaimRef panics the unnamed Delete after a
successful mount. -/
theorem C10_nil_deref_witness :
    pvNoNFS.nfs = none ∧ pvNoClaimRef.claimRef = none ∧
    Delete envAllOK fsEmpty pvNoNFS = none ∧
    DeleteU envAllOK fsEmpty pvNoClaimRef = none := by
  refine ⟨rfl, rfl, ?_⟩
  exact C10_nil_deref envAllOK fsEmpty pvNoNFS pvNoClaimRef
    ⟨bytes "s", bytes "/export/ns-pv-1", false⟩ rfl rfl rfl (by decide)

end NFSProv

namespace NFSProv

/-- C3 counterexample: in the unnamed variant the local mount point is
derived from the server alone — two Provision runs for distinct remote
paths on one server create and mount the very same local mount point. -/
theorem C3_counterexample :
    bytes "/a" ≠ bytes "/b" ∧
    (ProvisionU envAllOK fsEmpty (mkOpts false (paramsSP "s" "/a"))).tr.head?
      = some (Ev.mkdirAll (goJoin mountPathB (bytes "s"))) ∧
    (ProvisionU envAllOK fsEmpty (mkOpts false (paramsSP "s" "/b"))).tr.head?
      = some (Ev.mkdirAll (goJoin mountPathB (bytes "s"))) ∧
    (ProvisionU envAllOK fsEmpty (mkOpts false (paramsSP "s" "/a"))).fs.mounts
      = [goJoin mountPathB (bytes "s")] ∧
    (ProvisionU envAllOK fsEmpty (mkOpts false (paramsSP "s" "/b"))).fs.mounts
      = [goJoin mountPathB (bytes "s")] := by
  refine ⟨by decide, by decide, by decide, by decide, by decide⟩

/-- C3 amended: in the primary variant the mount point is a pure function
of (server, remotePath) and, for a fixed server, injective in the remote
path over byte strings, so repeated derivations agree and distinct remote
paths never collide; in the unnamed variant the mount point ignores the
remote path entirely (the counterexample), so only determinism holds
there. -/
theorem C3_mountPoint_inj (s p q : Bytes)
    (hp : ∀ b ∈ p, b < 256) (hq : ∀ b ∈ q, b < 256)
    (h : mountPoint s p = mountPoint s q) : p = q := by
  rw [mountPoint, mountPoint] at h
  have h2 := List.append_cancel_left h
  injection h2 with h0 h3
  exact queryEscape_inj p q hp hq h3

/-- C3 witness: the injectivity theorem applied at a concrete byte
string. -/
theorem C3_mountPoint_inj_witness :
    (∀ b ∈ bytes "/a", b < 256) ∧ bytes "/a" = bytes "/a" :=
  ⟨by decide, C3_mountPoint_inj (bytes "s") (bytes "/a") (bytes "/a")
    (by decide) (by decide) rfl⟩

/-- C7: on the success path the returned descriptor carries the export
path remotePath/name (filepath.Join, equal to plain extension when the
remote path is clean and the naming fields slash-free), capacity, access
modes and reclaim policy copied verbatim from the request, and the
requested volume name rather than the internal directory name. -/
theorem C7_descriptor (env : Env) (fs : FS) (o : VolumeOptions)
    (hsel : o.hasSelector = false)
    (h1 : inMap nfsPathKey o.parameters = true)
    (h2 : inMap nfsServerKey o.parameters = true)
    (hm : (ensureMount env fs (mapGet o.parameters nfsServerKey)
        (mapGet o.parameters nfsPathKey)).err = none)
    (hd : env.mkdirOK (goJoin (mountPoint (mapGet o.parameters nfsServerKey)
        (mapGet o.parameters nfsPathKey))
        (pvName o.tenant o.stack o.service o.pvname)) = true)
    (hp : goodAbsB (mapGet o.parameters nfsPathKey) = true)
    (hf : 47 ∉ o.tenant ∧ 47 ∉ o.stack ∧ 47 ∉ o.service ∧ 47 ∉ o.pvname) :
    (Provision env fs o).res = .ok
      { name := o.pvname
        labels := [(tenantKey, o.tenant), (stackKey, o.stack), (serviceKey, o.service)]
        reclaimPolicy := o.reclaimPolicy
        accessModes := o.accessModes
        capacityStorage := o.requestsStorage
        nfs := some ⟨mapGet o.parameters nfsServerKey,
          mapGet o.parameters nfsPathKey ++ 47 ::
            pvName o.tenant o.stack o.service o.pvname, false⟩
        claimRef := none } := by
  have hc : isCompB (pvName o.tenant o.stack o.service o.pvname) = true :=
    pvName_comp _ _ _ _ hf.1 hf.2.1 hf.2.2.1 hf.2.2.2
  rw [Provision_ok env fs o hsel h1 h2 hm hd,
    goJoin_good (mapGet o.parameters nfsPathKey) _ hp hc]

/-- C7 witness: the descriptor theorem run at the sample request. -/
theorem C7_descriptor_witness :
    (ensureMount envAllOK fsEmpty (mapGet oGood.parameters nfsServerKey)
        (mapGet oGood.parameters nfsPathKey)).err = none ∧
    (Provision envAllOK fsEmpty oGood).res = .ok
      { name := bytes "pv-1"
        labels := [(tenantKey, bytes "acme"), (stackKey, bytes "web"),
          (serviceKey, bytes "svc")]
        reclaimPolicy := 2
        accessModes := [1]
        capacityStorage := 5
        nfs := some ⟨bytes "s",
          bytes "/export" ++ 47 ::
            pvName (bytes "acme") (bytes "web") (bytes "svc") (bytes "pv-1"), false⟩
        claimRef := none } := by
  refine ⟨by decide, ?_⟩
  have h := C7_descriptor envAllOK fsEmpty oGood rfl (by decide) (by decide)
    (by decide) (by decide) (by decide) ⟨by decide, by decide, by decide, by decide⟩
  exact h

end NFSProv

namespace NFSProv

/-- C1 fails as stated: with remote path /export/ (a trailing slash, so
not a clean path) Provision succeeds, but Delete recomputes a different
local mount point — path.Dir cleans the stored export path, and the
escaped encodings of /export/ and /export differ — so the rename misses
and the original directory survives the Delete. -/
theorem C1_counterexample :
    cxProv.res.isOk = true ∧
    cxDel.isSome = true ∧
    (cxDel.getD dres0).err = some SysErr.renameNoEnt ∧
    goJoin (mountPoint (bytes "s") (bytes "/export/"))
        (pvName (bytes "acme") (bytes "web") (bytes "svc") (bytes "pv-1"))
      ∈ (cxDel.getD dres0).fs.dirs ∧
    mountPoint (bytes "s") (bytes "/export")
      ≠ mountPoint (bytes "s") (bytes "/export/") := by
  refine ⟨by decide, by decide, by decide, by decide, by decide⟩

/-- C1 amended: for a selector-free request whose remote path parameter is
a clean absolute path, whose server is a plain path component and whose
naming fields are slash-free, the descriptor of a successful Provision,
handed back unmodified, makes Delete resolve the same local mount point M,
recompute the same directory name, rename M/name to M/archived-name and
succeed, after which the original directory path no longer exists. -/
theorem C1_delete_archives (env env2 : Env) (fs : FS) (o : VolumeOptions)
    (sv pth pvn : Bytes)
    (hsv : sv = mapGet o.parameters nfsServerKey)
    (hpth : pth = mapGet o.parameters nfsPathKey)
    (hpvn : pvn = pvName o.tenant o.stack o.service o.pvname)
    (hsel : o.hasSelector = false)
    (h1 : inMap nfsPathKey o.parameters = true)
    (h2 : inMap nfsServerKey o.parameters = true)
    (hs : isCompB sv = true)
    (hp : goodAbsB pth = true)
    (hf : 47 ∉ o.tenant ∧ 47 ∉ o.stack ∧ 47 ∉ o.service ∧ 47 ∉ o.pvname)
    (hm : (ensureMount env fs sv pth).err = none)
    (hd : env.mkdirOK (goJoin (mountPoint sv pth) pvn) = true)
    (hread : env2.procReadable = true) :
    Delete env2 (Provision env fs o).fs (getPV (Provision env fs o).res) =
      some ⟨none,
        ⟨(Provision env fs o).fs.mounts,
          addDir (goJoin (mountPoint sv pth) (archivedPre ++ pvn))
            ((Provision env fs o).fs.dirs.filter
              (fun d => d != goJoin (mountPoint sv pth) pvn))⟩,
        [.rename (goJoin (mountPoint sv pth) pvn)
          (goJoin (mountPoint sv pth) (archivedPre ++ pvn))]⟩ ∧
    goJoin (mountPoint sv pth) pvn ∉
      addDir (goJoin (mountPoint sv pth) (archivedPre ++ pvn))
        ((Provision env fs o).fs.dirs.filter
          (fun d => d != goJoin (mountPoint sv pth) pvn)) := by
  subst hsv hpth hpvn
  have hc : isCompB (pvName o.tenant o.stack o.service o.pvname) = true :=
    pvName_comp _ _ _ _ hf.1 hf.2.1 hf.2.2.1 hf.2.2.2
  have hmpg := mountPoint_goodAbs _ _ hs hp
  have harc := archived_comp _ hc
  obtain ⟨-, hmem, -⟩ := ensureMount_ok_inv env fs _ _ hm
  have hjoin := goJoin_good (mapGet o.parameters nfsPathKey)
    (pvName o.tenant o.stack o.service o.pvname) hp hc
  have hgd : goDir (goJoin (mapGet o.parameters nfsPathKey)
      (pvName o.tenant o.stack o.service o.pvname))
      = mapGet o.parameters nfsPathKey := by
    rw [hjoin]
    exact goDir_extend _ _ hp hc
  have hProv := Provision_ok env fs o hsel h1 h2 hm hd
  rw [hProv]
  dsimp only [getPV]
  have hism : isMounted env2
      (FS.mk (ensureMount env fs (mapGet o.parameters nfsServerKey)
          (mapGet o.parameters nfsPathKey)).fs.mounts
        (addDir (goJoin (mountPoint (mapGet o.parameters nfsServerKey)
            (mapGet o.parameters nfsPathKey))
            (pvName o.tenant o.stack o.service o.pvname))
          (ensureMount env fs (mapGet o.parameters nfsServerKey)
            (mapGet o.parameters nfsPathKey)).fs.dirs))
      (mountPoint (mapGet o.parameters nfsServerKey)
        (mapGet o.parameters nfsPathKey)) = true := by
    simp only [isMounted, hread, Bool.true_and, decide_eq_true_eq]
    exact hmem
  have hal := ensureMount_already env2 _ _ _ hism
  have hm2 : (ensureMount env2
      (FS.mk (ensureMount env fs (mapGet o.parameters nfsServerKey)
          (mapGet o.parameters nfsPathKey)).fs.mounts
        (addDir (goJoin (mountPoint (mapGet o.parameters nfsServerKey)
            (mapGet o.parameters nfsPathKey))
            (pvName o.tenant o.stack o.service o.pvname))
          (ensureMount env fs (mapGet o.parameters nfsServerKey)
            (mapGet o.parameters nfsPathKey)).fs.dirs))
      (mapGet o.parameters nfsServerKey)
      (goDir (goJoin (mapGet o.parameters nfsPathKey)
        (pvName o.tenant o.stack o.service o.pvname)))).err = none := by
    rw [hgd, hal]
  have hlr := labels_roundtrip o.tenant o.stack o.service
  rw [Delete_run env2 _ _ ⟨mapGet o.parameters nfsServerKey,
      goJoin (mapGet o.parameters nfsPathKey)
        (pvName o.tenant o.stack o.service o.pvname), false⟩
    (pvName o.tenant o.stack o.service o.pvname) rfl hm2
    (by rw [hlr.1, hlr.2.1, hlr.2.2])]
  rw [hgd, hal]
  have hne : goJoin (mountPoint (mapGet o.parameters nfsServerKey)
        (mapGet o.parameters nfsPathKey))
      (archivedPre ++ pvName o.tenant o.stack o.service o.pvname)
      ≠ goJoin (mountPoint (mapGet o.parameters nfsServerKey)
        (mapGet o.parameters nfsPathKey))
      (pvName o.tenant o.stack o.service o.pvname) := by
    rw [goJoin_good _ _ hmpg hc, goJoin_good _ _ hmpg harc]
    intro hx
    have hx2 := List.append_cancel_left hx
    injection hx2 with h0 hx3
    exact archived_ne _ hx3
  have hin : goJoin (mountPoint (mapGet o.parameters nfsServerKey)
        (mapGet o.parameters nfsPathKey))
      (pvName o.tenant o.stack o.service o.pvname)
      ∈ (FS.mk (ensureMount env fs (mapGet o.parameters nfsServerKey)
          (mapGet o.parameters nfsPathKey)).fs.mounts
        (addDir (goJoin (mountPoint (mapGet o.parameters nfsServerKey)
            (mapGet o.parameters nfsPathKey))
            (pvName o.tenant o.stack o.service o.pvname))
          (ensureMount env fs (mapGet o.parameters nfsServerKey)
            (mapGet o.parameters nfsPathKey)).fs.dirs)).dirs :=
    (mem_addDir _ _ _).mpr (Or.inl rfl)
  obtain ⟨hr, hnm⟩ := osRename_removes _ _ _ hin hne
  rw [hr]
  exact ⟨by simp, hnm⟩

/-- C1 witness: the amended theorem run end to end at the sample request;
the Delete result is the successful archive, in particular it is a value,
not a panic or an error. -/
theorem C1_delete_archives_witness :
    (ensureMount envAllOK fsEmpty (bytes "s") (bytes "/export")).err = none ∧
    (Delete envAllOK (Provision envAllOK fsEmpty oGood).fs
      (getPV (Provision envAllOK fsEmpty oGood).res)).isSome = true := by
  refine ⟨by decide, ?_⟩
  rw [(C1_delete_archives envAllOK envAllOK fsEmpty oGood (bytes "s") (bytes "/export")
    (pvName (bytes "acme") (bytes "web") (bytes "svc") (bytes "pv-1"))
    (by decide) (by decide) rfl rfl (by decide) (by decide) (by decide) (by decide)
    ⟨by decide, by decide, by decide, by decide⟩ (by decide) (by decide) rfl).1]
  rfl

/-- C9 fails as stated: on the mount-error path the freshly created
mount-point directory is left behind, so partial state does remain. -/
theorem C9_counterexample :
    Provision envMountFail fsEmpty oGood =
      ⟨.error (.mountWrap .mountCmdFail),
        ⟨[], [mountPoint (bytes "s") (bytes "/export")]⟩,
        [.mkdirAll (mountPoint (bytes "s") (bytes "/export")),
          .mountCmd (bytes "s") (bytes "/export")
            (mountPoint (bytes "s") (bytes "/export"))]⟩ ∧
    (FS.mk [] [mountPoint (bytes "s") (bytes "/export")]).dirs ≠ fsEmpty.dirs := by
  refine ⟨by decide, by decide⟩

/-- C9 amended: (a) if the per-volume MkdirAll fails after a successful
ensureMount, the established mount stays in place and the per-volume
directory — distinct from the mount point — has not been created (the
state holds at most the new mount-point directory); (b) on the mount-error
path the mount table is untouched and at most the mount-point directory
has been newly created and remains — this remnant is what falsifies the
claim as stated; (c) a successful Provision adds exactly the per-volume
directory beyond, possibly, the mount-point directory itself. -/
theorem C9_frame (env : Env) (fs : FS) (o : VolumeOptions) (e : SysErr)
    (sv pth pvn : Bytes)
    (hsv : sv = mapGet o.parameters nfsServerKey)
    (hpth : pth = mapGet o.parameters nfsPathKey)
    (hpvn : pvn = pvName o.tenant o.stack o.service o.pvname)
    (hsel : o.hasSelector = false)
    (h1 : inMap nfsPathKey o.parameters = true)
    (h2 : inMap nfsServerKey o.parameters = true)
    (hs : isCompB sv = true)
    (hp : goodAbsB pth = true)
    (hf : 47 ∉ o.tenant ∧ 47 ∉ o.stack ∧ 47 ∉ o.service ∧ 47 ∉ o.pvname) :
    ((ensureMount env fs sv pth).err = none →
      env.mkdirOK (goJoin (mountPoint sv pth) pvn) = false →
      Provision env fs o = ⟨.error .dirCreate, (ensureMount env fs sv pth).fs,
        (ensureMount env fs sv pth).tr ++
          [.mkdirAll (goJoin (mountPoint sv pth) pvn)]⟩ ∧
      mountPoint sv pth ∈ (ensureMount env fs sv pth).fs.mounts ∧
      goJoin (mountPoint sv pth) pvn ≠ mountPoint sv pth ∧
      ((ensureMount env fs sv pth).fs.dirs = fs.dirs ∨
        (ensureMount env fs sv pth).fs.dirs = addDir (mountPoint sv pth) fs.dirs)) ∧
    ((ensureMount env fs sv pth).err = some e →
      Provision env fs o = ⟨.error (.mountWrap e), (ensureMount env fs sv pth).fs,
        (ensureMount env fs sv pth).tr⟩ ∧
      (ensureMount env fs sv pth).fs.mounts = fs.mounts ∧
      ((ensureMount env fs sv pth).fs.dirs = fs.dirs ∨
        (ensureMount env fs sv pth).fs.dirs = addDir (mountPoint sv pth) fs.dirs)) ∧
    ((ensureMount env fs sv pth).err = none →
      env.mkdirOK (goJoin (mountPoint sv pth) pvn) = true →
      (Provision env fs o).fs.dirs =
        addDir (goJoin (mountPoint sv pth) pvn)
          (ensureMount env fs sv pth).fs.dirs ∧
      ((ensureMount env fs sv pth).fs.dirs = fs.dirs ∨
        (ensureMount env fs sv pth).fs.dirs = addDir (mountPoint sv pth) fs.dirs)) := by
  subst hsv hpth hpvn
  have hc : isCompB (pvName o.tenant o.stack o.service o.pvname) = true :=
    pvName_comp _ _ _ _ hf.1 hf.2.1 hf.2.2.1 hf.2.2.2
  have hmpg := mountPoint_goodAbs _ _ hs hp
  have hnemp : goJoin (mountPoint (mapGet o.parameters nfsServerKey)
        (mapGet o.parameters nfsPathKey))
      (pvName o.tenant o.stack o.service o.pvname)
      ≠ mountPoint (mapGet o.parameters nfsServerKey)
        (mapGet o.parameters nfsPathKey) := by
    rw [goJoin_good _ _ hmpg hc]
    intro hx
    have hlen := congrArg List.length hx
    simp only [List.length_append, List.length_cons] at hlen
    omega
  refine ⟨?_, ?_, ?_⟩
  · intro hm hd
    obtain ⟨-, hmem, hdirs⟩ := ensureMount_ok_inv env fs _ _ hm
    exact ⟨Provision_dirFail env fs o hsel h1 h2 hm hd, hmem, hnemp, hdirs⟩
  · intro hm
    obtain ⟨hmounts, hdirs⟩ := ensureMount_err_inv env fs _ _ e hm
    exact ⟨Provision_mountErr env fs o e hsel h1 h2 hm, hmounts, hdirs⟩
  · intro hm hd
    obtain ⟨-, -, hdirs⟩ := ensureMount_ok_inv env fs _ _ hm
    refine ⟨?_, hdirs⟩
    rw [Provision_ok env fs o hsel h1 h2 hm hd]

/-- C9 witness: the frame theorem's mount-error branch run concretely —
the mount command fails, the mount table stays empty and the state gained
at most the mount-point directory. -/
theorem C9_frame_witness :
    (ensureMount envMountFail fsEmpty (bytes "s") (bytes "/export")).err
      = some SysErr.mountCmdFail ∧
    (Provision envMountFail fsEmpty oGood =
      ⟨.error (.mountWrap .mountCmdFail),
        (ensureMount envMountFail fsEmpty (bytes "s") (bytes "/export")).fs,
        (ensureMount envMountFail fsEmpty (bytes "s") (bytes "/export")).tr⟩ ∧
      (ensureMount envMountFail fsEmpty (bytes "s") (bytes "/export")).fs.mounts
        = fsEmpty.mounts ∧
      ((ensureMount envMountFail fsEmpty (bytes "s") (bytes "/export")).fs.dirs
          = fsEmpty.dirs ∨
        (ensureMount envMountFail fsEmpty (bytes "s") (bytes "/export")).fs.dirs
          = addDir (mountPoint (bytes "s") (bytes "/export")) fsEmpty.dirs)) := by
  refine ⟨by decide, ?_⟩
  exact (C9_frame envMountFail fsEmpty oGood .mountCmdFail
    (bytes "s") (bytes "/export")
    (pvName (bytes "acme") (bytes "web") (bytes "svc") (bytes "pv-1"))
    (by decide) (by decide) rfl rfl (by decide) (by decide) (by decide) (by decide)
    ⟨by decide, by decide, by decide, by decide⟩).2.1 (by decide)

end NFSProv
